import Mathlib

/-!
Verification of the Event-Dashboard schedule-control and messaging core.

The repository's browser front end (ViewerDashboard, CrewDashboard,
CurrentOnlyDashboard, AdminOverview, AdminSchedule, ThemeContext) is embedded
directly from the JSX sources.  The REST backend that implements the schedule
control state machine and the message/acknowledgement subsystem is not part of
the sources at hand (the front end only calls it over HTTP), so those
operations are modelled from the specification (sections 3, 4.1, 4.2, 7); each
such definition carries a doc comment saying so.

Times are modelled as exact integer milliseconds.  The JavaScript code does
its countdown arithmetic on values well below 2^40, where IEEE double
division followed by Math.floor agrees with exact integer division, so the
integer model is faithful on every input the code can encounter.
-/

namespace EventDashboard

/-- ScheduleItem record as described in the data model and consumed by the
front end: times are `HH:MM` strings, `phase_id` an optional foreign key,
`people`/`groups` plain id lists. -/
structure ScheduleItem where
  id : String
  title : String
  description : String
  start_time : String
  end_time : String
  phase_id : Option String
  notes : String
  is_current : Bool
  people : List String
  groups : List String
deriving DecidableEq, Repr

/-- Phase record: a label with a display color. -/
structure Phase where
  id : String
  name : String
  color : String
  order : Nat
deriving DecidableEq, Repr

/-- Person record. -/
structure Person where
  id : String
  name : String
  role : Option String
  color : Option String
deriving DecidableEq, Repr

/-- Group record with a plain member id list. -/
structure Group where
  id : String
  name : String
  color : Option String
  member_ids : List String
deriving DecidableEq, Repr

/-! ## Countdown computation (client side)

`calculateCountdown` appears in ViewerDashboard.jsx, CrewDashboard.jsx,
CurrentOnlyDashboard.jsx and AdminOverview.jsx with the same body.  It parses
the current item's `end_time` with `String(x || '00:00').split(':').map(Number)`
followed by `endHours || 0` / `endMinutes || 0`, builds the end time on
today's date with `setHours`, and splits the positive remainder into
hours/minutes/seconds. -/

/-- Digits-to-number accumulator: `some n` when every character is a decimal
digit (and the list is non-empty handled by the caller), `none` otherwise. -/
def parseDigits (cs : List Char) : Option Nat :=
  cs.foldl
    (fun acc c =>
      match acc with
      | none => none
      | some n => if c.isDigit then some (n * 10 + (c.toNat - 48)) else none)
    (some 0)

/-- Model of the JavaScript `Number(s) || 0` coercion used on the pieces of
the `end_time` string: the empty string gives 0 (as `Number('')` does), an
optionally `-`-signed digit string gives its value, and anything else is NaN
which `|| 0` turns into 0.  Fractional, exponent and padded forms, which the
`HH:MM` fields never take, are also sent to 0. -/
def jsNumberOrZero (s : String) : Int :=
  if s = "" then 0
  else
    match s.data with
    | '-' :: rest =>
      (match parseDigits rest with
       | some n => if rest = [] then 0 else -(n : Int)
       | none => 0)
    | cs =>
      (match parseDigits cs with
       | some n => n
       | none => 0)

/-- Parse of the item's `end_time` exactly as the four `calculateCountdown`
copies do: `String(currentItem.end_time || '00:00').split(':')`, first piece
to hours, second piece (or NaN when missing) to minutes, each through
`Number(x) || 0`. -/
def parseEndTime (raw : String) : Int × Int :=
  let s := if raw = "" then "00:00" else raw
  let parts := s.splitOn ":"
  let h := match parts with
    | [] => 0
    | p :: _ => jsNumberOrZero p
  let m := match parts.get? 1 with
    | some p => jsNumberOrZero p
    | none => 0
  (h, m)

/-- Displayed countdown triple. -/
structure Countdown where
  hours : Nat
  minutes : Nat
  seconds : Nat
deriving DecidableEq, Repr

/-- The `calculateCountdown` closure of ViewerDashboard.jsx (lines 90-117),
as a function of the polled schedule, `settings.is_paused` and the wall clock
(milliseconds since today's midnight, the reference point `setHours` uses). -/
def viewerCalculateCountdown (schedule : List ScheduleItem) (is_paused : Bool)
    (nowMs : Nat) : Countdown :=
  match schedule.find? (fun item => item.is_current) with
  | none => ⟨0, 0, 0⟩
  | some currentItem =>
    if is_paused then ⟨0, 0, 0⟩
    else
      let hm := parseEndTime currentItem.end_time
      let endMs : Int := hm.1 * 3600000 + hm.2 * 60000
      let diff : Int := endMs - (nowMs : Int)
      if 0 < diff then
        ⟨diff.toNat / 3600000, diff.toNat % 3600000 / 60000,
         diff.toNat % 60000 / 1000⟩
      else ⟨0, 0, 0⟩

/-- The `calculateCountdown` closure of CrewDashboard.jsx (lines 113-143);
its body coincides with the viewer's. -/
def crewCalculateCountdown (schedule : List ScheduleItem) (is_paused : Bool)
    (nowMs : Nat) : Countdown :=
  match schedule.find? (fun item => item.is_current) with
  | none => ⟨0, 0, 0⟩
  | some currentItem =>
    if is_paused then ⟨0, 0, 0⟩
    else
      let hm := parseEndTime currentItem.end_time
      let endMs : Int := hm.1 * 3600000 + hm.2 * 60000
      let diff : Int := endMs - (nowMs : Int)
      if 0 < diff then
        ⟨diff.toNat / 3600000, diff.toNat % 3600000 / 60000,
         diff.toNat % 60000 / 1000⟩
      else ⟨0, 0, 0⟩

/-- The `calculateCountdown` closure of CurrentOnlyDashboard.jsx
(lines 73-100); its body coincides with the viewer's. -/
def currentOnlyCalculateCountdown (schedule : List ScheduleItem)
    (is_paused : Bool) (nowMs : Nat) : Countdown :=
  match schedule.find? (fun item => item.is_current) with
  | none => ⟨0, 0, 0⟩
  | some currentItem =>
    if is_paused then ⟨0, 0, 0⟩
    else
      let hm := parseEndTime currentItem.end_time
      let endMs : Int := hm.1 * 3600000 + hm.2 * 60000
      let diff : Int := endMs - (nowMs : Int)
      if 0 < diff then
        ⟨diff.toNat / 3600000, diff.toNat % 3600000 / 60000,
         diff.toNat % 60000 / 1000⟩
      else ⟨0, 0, 0⟩

/-- The `calculateCountdown` closure of admin/AdminOverview.jsx
(lines 60-87); its body coincides with the viewer's. -/
def adminCalculateCountdown (schedule : List ScheduleItem) (is_paused : Bool)
    (nowMs : Nat) : Countdown :=
  match schedule.find? (fun item => item.is_current) with
  | none => ⟨0, 0, 0⟩
  | some currentItem =>
    if is_paused then ⟨0, 0, 0⟩
    else
      let hm := parseEndTime currentItem.end_time
      let endMs : Int := hm.1 * 3600000 + hm.2 * 60000
      let diff : Int := endMs - (nowMs : Int)
      if 0 < diff then
        ⟨diff.toNat / 3600000, diff.toNat % 3600000 / 60000,
         diff.toNat % 60000 / 1000⟩
      else ⟨0, 0, 0⟩

/-- Total value of a displayed countdown, in seconds. -/
def countdownTotalSeconds (c : Countdown) : Nat :=
  c.hours * 3600 + c.minutes * 60 + c.seconds

/-- End time of an item, as milliseconds since today's midnight, through the
same parse the views perform (setHours rolls hour values past 24 into the
following days, which the flat millisecond offset reproduces). -/
def endTimeOfTodayMs (item : ScheduleItem) : Int :=
  (parseEndTime item.end_time).1 * 3600000 + (parseEndTime item.end_time).2 * 60000

/-- Remaining duration in whole seconds: end-time-of-today minus now,
floored at zero. -/
def remainingSecondsFloored (item : ScheduleItem) (nowMs : Nat) : Nat :=
  (endTimeOfTodayMs item - (nowMs : Int)).toNat / 1000

/-! ## Error taxonomy -/

/-- Error taxonomy of section 7: `ValidationError` (HTTP 400), `NotFound`
(HTTP 404), `InvalidOrder` (reorder id-set mismatch), `Unauthorized`
(HTTP 401). -/
inductive ApiError where
  | NotFound
  | InvalidOrder
  | ValidationError
  | Unauthorized
deriving DecidableEq, Repr

/-! ## Messaging / acknowledgement subsystem -/

/-- Message singleton record `{id, text, active, created, acked_by}`. -/
structure Message where
  id : String
  text : String
  active : Bool
  created : Nat
  acked_by : List String
deriving DecidableEq, Repr

/-- Empty or whitespace-only text, the shape rejected by message posting. -/
def isBlankText (s : String) : Bool :=
  s.data.all Char.isWhitespace

/-- Modelled from the spec: the backend `POST /message {text}` handler is not
among the sources (only its front-end callers are).  Posting replaces any
previous message, sets `active = true` and resets `acked_by` to empty; it
fails with `ValidationError` on empty or whitespace-only text.  The
server-assigned id is modelled by a constant since the message is a
singleton. -/
def postMessage (text : String) (now : Nat) (_prior : Message) :
    Except ApiError Message :=
  if isBlankText text then .error .ValidationError
  else .ok { id := "message", text := text, active := true, created := now, acked_by := [] }

/-- Modelled from the spec: the backend `POST /message/ack {client_id}`
handler is not among the sources.  It adds the client id to `acked_by`
idempotently, never touches `active`, and fails with `ValidationError` when
the client identifier is missing. -/
def ackMessage (client_id : String) (m : Message) : Except ApiError Message :=
  if client_id = "" then .error .ValidationError
  else if m.acked_by.contains client_id then .ok m
  else .ok { m with acked_by := m.acked_by ++ [client_id] }

/-- Modelled from the spec: the backend `POST /message/clear` handler is not
among the sources.  Clearing deactivates the message globally, regardless of
per-client acknowledgement state. -/
def clearMessage (m : Message) : Message :=
  { m with active := false }

/-- Modelled from the spec: a client's observed activity, computed at read
time by `GET /message?client_id=...` as
`observed_active = message.active AND client_id NOT IN acked_by`. -/
def observedActive (m : Message) (client_id : String) : Bool :=
  m.active && !(m.acked_by.contains client_id)

/-! ## Schedule control state machine

The backend handlers for `POST /control/...`, `PUT /schedule/reorder` and the
schedule CRUD routes are not among the sources (the front end calls them over
REST), so the operations below are modelled from the specification,
section 4.1. -/

/-- Clear the `is_current` flag on every item (the "all other items' flag
cleared" part of each control operation, and the whole of
`clear_current()`). -/
def clearFlags (l : List ScheduleItem) : List ScheduleItem :=
  l.map fun it => { it with is_current := false }

/-- Set the item at the given position current and clear every other flag. -/
def setCurrentIdx : List ScheduleItem → Nat → List ScheduleItem
  | [], _ => []
  | it :: rest, 0 => { it with is_current := true } :: clearFlags rest
  | it :: rest, Nat.succ n => { it with is_current := false } :: setCurrentIdx rest n

/-- Derived current index: index of the item with `is_current = true`, or
none. -/
def currentIndexOf : List ScheduleItem → Option Nat
  | [] => none
  | it :: rest =>
    if it.is_current then some 0 else (currentIndexOf rest).map (· + 1)

/-- Number of items whose `is_current` flag is set. -/
def countCurrent (l : List ScheduleItem) : Nat :=
  (l.filter fun it => it.is_current).length

/-- Stored id list, in order. -/
def scheduleIds (l : List ScheduleItem) : List String :=
  l.map fun it => it.id

/-- Modelled from the spec: `next()` — if no current item, set index 0
current (if the list is non-empty); else set `min(len-1, currentIndex+1)`
current; all other items' flags cleared. -/
def nextOp (l : List ScheduleItem) : List ScheduleItem :=
  match currentIndexOf l with
  | none => if l.isEmpty then l else setCurrentIdx l 0
  | some i => setCurrentIdx l (min (l.length - 1) (i + 1))

/-- Modelled from the spec: `previous()` — if no current item treat as index
0; else `max(0, currentIndex-1)` (natural subtraction), symmetric boundary
policy. -/
def previousOp (l : List ScheduleItem) : List ScheduleItem :=
  match currentIndexOf l with
  | none => if l.isEmpty then l else setCurrentIdx l 0
  | some i => setCurrentIdx l (i - 1)

/-- Flag rewrite used by `set_current(id)`: exactly the items carrying the
requested id become current. -/
def setCurrentById (l : List ScheduleItem) (id : String) : List ScheduleItem :=
  l.map fun it => { it with is_current := it.id == id }

/-- Modelled from the spec: `set_current(id)` fails with `NotFound` if the id
is absent from the list; otherwise clears all flags and sets the matching
item, independent of list order/position. -/
def setCurrentOp (l : List ScheduleItem) (id : String) :
    Except ApiError (List ScheduleItem) :=
  if (scheduleIds l).contains id then .ok (setCurrentById l id)
  else .error .NotFound

/-- Modelled from the spec: `clear_current()` clears the flag on every item;
the list enters the "no current item" state. -/
def clearCurrentOp (l : List ScheduleItem) : List ScheduleItem :=
  clearFlags l

/-- Modelled from the spec: `reorder(ids)` replaces the stored order with the
given permutation of the existing ids (each record travels whole, looked up
by id) and fails with `InvalidOrder` if the submitted list is not a
permutation of the stored ids — the exact id-set match of section 4.1, with
duplicated ids likewise rejected. -/
def reorderOp (l : List ScheduleItem) (ids : List String) :
    Except ApiError (List ScheduleItem) :=
  if ids.Perm (scheduleIds l) then
    .ok (ids.filterMap fun i => l.find? fun it => it.id == i)
  else .error .InvalidOrder

/-- Editable fields of a schedule item: everything the admin form submits —
`is_current` is only touched by the control operations, and the id is
immutable. -/
structure EditPayload where
  title : String
  description : String
  start_time : String
  end_time : String
  phase_id : Option String
  notes : String
  people : List String
  groups : List String
deriving DecidableEq, Repr

/-- Overwrite the editable fields of an item with a payload. -/
def applyEdit (p : EditPayload) (it : ScheduleItem) : ScheduleItem :=
  { it with
    title := p.title
    description := p.description
    start_time := p.start_time
    end_time := p.end_time
    phase_id := p.phase_id
    notes := p.notes
    people := p.people
    groups := p.groups }

/-- Modelled from the spec: `PUT /schedule/{id}` — edit mutates the editable
fields of the matching record and fails with `NotFound` on an unknown id. -/
def editOp (l : List ScheduleItem) (id : String) (p : EditPayload) :
    Except ApiError (List ScheduleItem) :=
  if (scheduleIds l).contains id then
    .ok (l.map fun it => if it.id == id then applyEdit p it else it)
  else .error .NotFound

/-- Modelled from the spec: `DELETE /schedule/{id}` — remove the matching
record, `NotFound` on an unknown id. -/
def deleteOp (l : List ScheduleItem) (id : String) :
    Except ApiError (List ScheduleItem) :=
  if (scheduleIds l).contains id then
    .ok (l.filter fun it => !(it.id == id))
  else .error .NotFound

/-- Modelled from the spec: `POST /schedule` — append a new record; ids are
assigned server-side, so the stored id is always fresh (a colliding id, which
the server's id generator never produces, is modelled as a rejected request),
and a created item starts without the current flag (the admin form does not
submit `is_current`; only control operations touch it). -/
def createOp (l : List ScheduleItem) (item : ScheduleItem) :
    List ScheduleItem :=
  if (scheduleIds l).contains item.id then l
  else l ++ [{ item with is_current := false }]

/-- Mutations of the schedule collection. -/
inductive ScheduleOp where
  | next
  | previous
  | setCur (id : String)
  | clearCur
  | reorder (ids : List String)
  | create (item : ScheduleItem)
  | edit (id : String) (p : EditPayload)
  | delete (id : String)

/-- Apply one mutation; a failing request leaves the stored collection
unchanged (errors are terminal for the single request). -/
def applyOp (l : List ScheduleItem) : ScheduleOp → List ScheduleItem
  | .next => nextOp l
  | .previous => previousOp l
  | .setCur id =>
    match setCurrentOp l id with
    | .ok l' => l'
    | .error _ => l
  | .clearCur => clearCurrentOp l
  | .reorder ids =>
    match reorderOp l ids with
    | .ok l' => l'
    | .error _ => l
  | .create item => createOp l item
  | .edit id p =>
    match editOp l id p with
    | .ok l' => l'
    | .error _ => l
  | .delete id =>
    match deleteOp l id with
    | .ok l' => l'
    | .error _ => l

/-- Apply a sequence of mutations, oldest first. -/
def applyOps (ops : List ScheduleOp) (l : List ScheduleItem) :
    List ScheduleItem :=
  ops.foldl applyOp l

/-- Schedule store invariant: server-assigned ids are distinct, and at most
one item carries the current flag. -/
def ScheduleInv (l : List ScheduleItem) : Prop :=
  (scheduleIds l).Nodup ∧ countCurrent l ≤ 1

/-- The navigation subset of the control surface, for the boundary-behaviour
statements. -/
inductive NavOp where
  | next
  | previous
deriving DecidableEq, Repr

/-- One navigation step. -/
def navStep (l : List ScheduleItem) : NavOp → List ScheduleItem
  | .next => nextOp l
  | .previous => previousOp l

/-- A sequence of navigation steps, oldest first. -/
def navApply : List NavOp → List ScheduleItem → List ScheduleItem
  | [], l => l
  | op :: ops, l => navApply ops (navStep l op)

/-! ## Drag-and-drop reorder (admin/AdminSchedule.jsx) -/

/-- The `arrayMove` helper of dnd-kit as `handleDragEnd` uses it: remove the
element at `fromIdx` and re-insert it at `toIdx`.  `handleDragEnd` only calls
it with indices of rendered schedule items (dnd-kit's `active`/`over` ids are
ids from the `SortableContext`), so the out-of-range splice behaviour of the
JavaScript library is left unmodelled: an out-of-range `fromIdx` here keeps
the list unchanged. -/
def jsArrayMove (l : List ScheduleItem) (fromIdx toIdx : Nat) :
    List ScheduleItem :=
  match l.get? fromIdx with
  | none => l
  | some moved => (l.eraseIdx fromIdx).insertIdx toIdx moved

/-- The `handleDragEnd` handler of admin/AdminSchedule.jsx (lines 203-225),
reduced to the id list it submits to `PUT /schedule/reorder`: nothing is
submitted without an `over` target or when the item was dropped on itself;
otherwise the moved list's ids are sent as `{order: [...]}`. -/
def handleDragEnd (schedule : List ScheduleItem) (activeId : String)
    (over : Option String) : Option (List String) :=
  match over with
  | none => none
  | some overId =>
    if activeId == overId then none
    else
      let oldIndex := schedule.findIdx fun i => i.id == activeId
      let newIndex := schedule.findIdx fun i => i.id == overId
      some ((jsArrayMove schedule oldIndex newIndex).map fun i => i.id)

/-! ## Poll-failure behaviour of the consumers

Each polling fetch is embedded as a pure state-update function taking the
request outcome: `none` models the rejected promise (the catch branch), and
the payload shapes mirror the defensive coercions of the code. -/

/-- Either a JSON array payload or any other body (the target of the
`Array.isArray(x) ? x : []` check). -/
inductive ArrayPayload (α : Type) where
  | arr (items : List α)
  | notArray
deriving DecidableEq, Repr

/-- The `Array.isArray(x) ? x : []` coercion. -/
def coerceArray {α : Type} : ArrayPayload α → List α
  | .arr items => items
  | .notArray => []

/-- The `x || []` coercion on a possibly-absent `data` field. -/
def orEmptyList {α : Type} : Option (List α) → List α
  | some items => items
  | none => []

/-- Rendered data state of ViewerDashboard. -/
structure ViewerData where
  schedule : List ScheduleItem
  phases : List Phase
deriving DecidableEq, Repr

/-- The `fetchData` callback of ViewerDashboard.jsx (lines 51-63): both GETs
run in one `Promise.all`, a fulfilled round sets both slices through
`Array.isArray`, and the catch branch only logs — no state update. -/
def viewerFetchData (s : ViewerData)
    (result : Option (ArrayPayload ScheduleItem × ArrayPayload Phase)) :
    ViewerData :=
  match result with
  | some (sd, pd) => { schedule := coerceArray sd, phases := coerceArray pd }
  | none => s

/-- Rendered data state of CrewDashboard. -/
structure CrewData where
  schedule : List ScheduleItem
  phases : List Phase
  people : List Person
  groups : List Group
deriving DecidableEq, Repr

/-- The `fetchData` callback of CrewDashboard.jsx (lines 55-74): the four
GETs run in a `Promise.allSettled`; each fulfilled slot updates its slice
through `res.data || []`, and a rejected slot (outer `none`) leaves its slice
untouched.  The outer catch is unreachable since `allSettled` never
rejects. -/
def crewFetchData (s : CrewData)
    (rs : Option (Option (List ScheduleItem)) × Option (Option (List Phase))
        × Option (Option (List Person)) × Option (Option (List Group))) :
    CrewData :=
  { schedule :=
      match rs.1 with
      | some d => orEmptyList d
      | none => s.schedule
    phases :=
      match rs.2.1 with
      | some d => orEmptyList d
      | none => s.phases
    people :=
      match rs.2.2.1 with
      | some d => orEmptyList d
      | none => s.people
    groups :=
      match rs.2.2.2 with
      | some d => orEmptyList d
      | none => s.groups }

/-- Settings record of ThemeContext.jsx, with the fields of its `useState`
initialiser. -/
structure ThemeSettings where
  event_name : String
  event_date : String
  primary_color : String
  accent_color : String
  background_color : String
  surface_color : String
  text_color : String
  is_paused : Bool
  current_item_id : Option String
  show_countdown : Bool
  auto_scroll : Bool
deriving DecidableEq, Repr

/-- Initial settings of ThemeContext.jsx (lines 10-22). -/
def defaultThemeSettings : ThemeSettings :=
  { event_name := "Event Dashboard"
    event_date := ""
    primary_color := "#3b82f6"
    accent_color := "#ef4444"
    background_color := "#09090b"
    surface_color := "#18181b"
    text_color := "#fafafa"
    is_paused := false
    current_item_id := none
    show_countdown := true
    auto_scroll := true }

/-- React state held by ThemeContext: the settings record plus the `loading`
flag. -/
structure ThemeState where
  settings : ThemeSettings
  loading : Bool
deriving DecidableEq, Repr

/-- The `fetchSettings` function of ThemeContext.jsx (lines 25-34): a
fulfilled GET replaces the settings; the catch branch only logs; the
`finally` block sets `loading` to `false` on both paths. -/
def fetchSettingsUpdate (s : ThemeState) (result : Option ThemeSettings) :
    ThemeState :=
  match result with
  | some data => { settings := data, loading := false }
  | none => { settings := s.settings, loading := false }

/-! ## Demonstration values used by the witnesses -/

/-- Demo schedule item, current, ending at 10:00. -/
def demoC3Item : ScheduleItem :=
  { id := "it1", title := "Opening", description := "", start_time := "09:00",
    end_time := "10:00", phase_id := none, notes := "", is_current := true,
    people := [], groups := [] }

/-- Demo one-item schedule. -/
def demoC3Schedule : List ScheduleItem := [demoC3Item]

/-- Demo prior message, already acknowledged by clientX. -/
def demoPriorMessage : Message :=
  { id := "message", text := "old", active := true, created := 0,
    acked_by := ["clientX"] }

/-! ## C3: countdown value -/

/-- C3: for every schedule list, pause flag and wall-clock time, the
countdown displayed by the viewer, crew and admin-overview views equals the
current item's end-time-of-today minus now floored at zero (at the one-second
granularity of the display), and it is zero whenever no item is current or
`settings.is_paused` is set. -/
theorem countdown_matches_remaining (schedule : List ScheduleItem)
    (is_paused : Bool) (nowMs : Nat) :
    ((schedule.find? (fun item => item.is_current) = none ∨ is_paused = true) →
      viewerCalculateCountdown schedule is_paused nowMs = ⟨0, 0, 0⟩ ∧
      crewCalculateCountdown schedule is_paused nowMs = ⟨0, 0, 0⟩ ∧
      adminCalculateCountdown schedule is_paused nowMs = ⟨0, 0, 0⟩) ∧
    (∀ item, schedule.find? (fun it => it.is_current) = some item →
      is_paused = false →
      countdownTotalSeconds (viewerCalculateCountdown schedule is_paused nowMs)
          = remainingSecondsFloored item nowMs ∧
      countdownTotalSeconds (crewCalculateCountdown schedule is_paused nowMs)
          = remainingSecondsFloored item nowMs ∧
      countdownTotalSeconds (adminCalculateCountdown schedule is_paused nowMs)
          = remainingSecondsFloored item nowMs) := by
  have hcrew : crewCalculateCountdown = viewerCalculateCountdown := rfl
  have hadmin : adminCalculateCountdown = viewerCalculateCountdown := rfl
  constructor
  · rintro (hnone | hpause)
    · simp [viewerCalculateCountdown, crewCalculateCountdown,
        adminCalculateCountdown, hnone]
    · cases hfind : schedule.find? (fun item => item.is_current) <;>
        simp [viewerCalculateCountdown, crewCalculateCountdown,
          adminCalculateCountdown, hpause, hfind]
  · intro item hfind hpause
    rw [hcrew, hadmin]
    have hv : countdownTotalSeconds
        (viewerCalculateCountdown schedule is_paused nowMs)
        = remainingSecondsFloored item nowMs := by
      subst hpause
      simp only [viewerCalculateCountdown, hfind]
      simp only [Bool.false_eq_true, if_false]
      by_cases hd : 0 < endTimeOfTodayMs item - (nowMs : Int)
      · simp only [endTimeOfTodayMs] at hd
        simp only [hd, if_true, countdownTotalSeconds,
          remainingSecondsFloored, endTimeOfTodayMs]
        omega
      · simp only [endTimeOfTodayMs] at hd
        simp only [hd, if_false, countdownTotalSeconds,
          remainingSecondsFloored, endTimeOfTodayMs]
        omega
    exact ⟨hv, hv, hv⟩

/-- C3 witness: at 09:59:30 the one-item demo schedule shows the remaining
time to 10:00, and the paused display is zero. -/
theorem countdown_matches_remaining_witness :
    countdownTotalSeconds (viewerCalculateCountdown demoC3Schedule false 35970000)
        = remainingSecondsFloored demoC3Item 35970000 ∧
    viewerCalculateCountdown demoC3Schedule true 35970000 = ⟨0, 0, 0⟩ :=
  ⟨((countdown_matches_remaining demoC3Schedule false 35970000).2 demoC3Item
      rfl rfl).1,
   ((countdown_matches_remaining demoC3Schedule true 35970000).1
      (Or.inr rfl)).1⟩

/-! ## C10: the duplicated countdown computations agree -/

/-- C10: the countdown computation duplicated across the viewer, crew and
current-only views is extensionally equal: identical inputs produce the same
hours/minutes/seconds triple. -/
theorem countdown_views_extensionally_equal (schedule : List ScheduleItem)
    (is_paused : Bool) (nowMs : Nat) :
    viewerCalculateCountdown schedule is_paused nowMs
        = crewCalculateCountdown schedule is_paused nowMs ∧
    crewCalculateCountdown schedule is_paused nowMs
        = currentOnlyCalculateCountdown schedule is_paused nowMs :=
  ⟨rfl, rfl⟩

/-! ## C4: posting a message resets acknowledgements -/

/-- C4: posting a message resets `acked_by` to empty and sets
`active = true`, replacing any previous message (the result does not depend
on the prior message), so a client recorded in the prior message's `acked_by`
set observes the new message as active at read time. -/
theorem post_resets_acks_observed_active (prior : Message) (text : String)
    (now : Nat) (c : String) (htext : isBlankText text = false)
    (hc : c ∈ prior.acked_by) :
    ∃ m', postMessage text now prior = .ok m' ∧ m'.acked_by = [] ∧
      m'.active = true ∧ observedActive m' c = true ∧
      ∀ other : Message, postMessage text now other = postMessage text now prior := by
  refine ⟨{ id := "message", text := text, active := true, created := now,
            acked_by := [] }, ?_, rfl, rfl, rfl, ?_⟩
  · simp [postMessage, htext]
  · intro other
    simp [postMessage]

/-- C4 witness: posting "Pause" over the demo message makes it observed
active again for clientX, who had acknowledged the prior message. -/
theorem post_resets_acks_witness :
    isBlankText "Pause" = false ∧ "clientX" ∈ demoPriorMessage.acked_by ∧
    ∃ m', postMessage "Pause" 5 demoPriorMessage = .ok m' ∧ m'.acked_by = [] ∧
      m'.active = true ∧ observedActive m' "clientX" = true ∧
      ∀ other : Message,
        postMessage "Pause" 5 other = postMessage "Pause" 5 demoPriorMessage :=
  ⟨by decide, by decide,
   post_resets_acks_observed_active demoPriorMessage "Pause" 5 "clientX"
     (by decide) (by decide)⟩

/-! ## C5: acknowledge is idempotent and never touches `active` -/

/-- C5: acknowledging twice with the same client id is the same as
acknowledging once, and no successful acknowledgement by any client changes
the global `active` flag. -/
theorem ack_idempotent_preserves_active (m : Message) (c : String) :
    (ackMessage c m).bind (ackMessage c) = ackMessage c m ∧
    ∀ m', ackMessage c m = .ok m' → m'.active = m.active := by
  constructor
  · by_cases hc : c = ""
    · simp [ackMessage, hc, Except.bind]
    · by_cases hmem : c ∈ m.acked_by
      · simp [ackMessage, hc, hmem, Except.bind]
      · simp [ackMessage, hc, hmem, Except.bind]
  · intro m' h
    by_cases hc : c = ""
    · simp [ackMessage, hc] at h
    · by_cases hmem : c ∈ m.acked_by
      · simp [ackMessage, hc, hmem] at h
        subst h
        rfl
      · simp [ackMessage, hc, hmem] at h
        subst h
        rfl

/-- C5 witness: clientY acks the demo message; a second ack changes nothing
and `active` is untouched. -/
theorem ack_idempotent_witness :
    (ackMessage "clientY" demoPriorMessage).bind (ackMessage "clientY")
        = ackMessage "clientY" demoPriorMessage ∧
    ({ demoPriorMessage with acked_by := ["clientX", "clientY"] } : Message).active
        = demoPriorMessage.active :=
  ⟨(ack_idempotent_preserves_active demoPriorMessage "clientY").1,
   (ack_idempotent_preserves_active demoPriorMessage "clientY").2 _
     (by simp [ackMessage, demoPriorMessage])⟩

/-! ## C9: behaviour of the consumers on a failed poll -/

/-- C9 counterexample: the claim "the fetch-error branch of each consumer's
poll function performs no state update" fails for ThemeContext, whose
`finally` block sets `loading` to `false` even when the fetch failed: from
the state with `loading = true` the failed fetch does change the React
state. -/
theorem fetch_error_counterexample :
    fetchSettingsUpdate { settings := defaultThemeSettings, loading := true }
        none
      ≠ { settings := defaultThemeSettings, loading := true } := by
  simp [fetchSettingsUpdate]

/-- C9 (amended): a failed poll leaves every rendered data slice unchanged —
the viewer and crew fetchers perform no state update at all on error (crew
per rejected endpoint), and ThemeContext keeps its settings record; the only
write on the ThemeContext error path is the `finally` block forcing the
never-rendered `loading` flag to `false`.  Polling failures therefore never
clear already-rendered data. -/
theorem fetch_error_leaves_data_unchanged :
    (∀ s : ViewerData, viewerFetchData s none = s) ∧
    (∀ s : CrewData, crewFetchData s (none, none, none, none) = s) ∧
    (∀ (s : CrewData) r2 r3 r4,
      (crewFetchData s (none, r2, r3, r4)).schedule = s.schedule) ∧
    (∀ (s : CrewData) r1 r3 r4,
      (crewFetchData s (r1, none, r3, r4)).phases = s.phases) ∧
    (∀ (s : CrewData) r1 r2 r4,
      (crewFetchData s (r1, r2, none, r4)).people = s.people) ∧
    (∀ (s : CrewData) r1 r2 r3,
      (crewFetchData s (r1, r2, r3, none)).groups = s.groups) ∧
    (∀ s : ThemeState, (fetchSettingsUpdate s none).settings = s.settings ∧
      (fetchSettingsUpdate s none).loading = false) :=
  ⟨fun _ => rfl, fun _ => rfl, fun _ _ _ _ => rfl, fun _ _ _ _ => rfl,
   fun _ _ _ _ => rfl, fun _ _ _ _ => rfl, fun _ => ⟨rfl, rfl⟩⟩

/-! ## Helper lemmas on the schedule primitives -/

theorem countCurrent_nil : countCurrent [] = 0 := rfl

theorem countCurrent_cons (it : ScheduleItem) (l : List ScheduleItem) :
    countCurrent (it :: l) = (if it.is_current then 1 else 0) + countCurrent l := by
  simp only [countCurrent, List.filter_cons]
  cases h : it.is_current <;> simp [h, Nat.add_comm]

theorem clearFlags_cons (it : ScheduleItem) (rest : List ScheduleItem) :
    clearFlags (it :: rest)
      = { it with is_current := false } :: clearFlags rest := rfl

theorem scheduleIds_cons (it : ScheduleItem) (rest : List ScheduleItem) :
    scheduleIds (it :: rest) = it.id :: scheduleIds rest := rfl

theorem countCurrent_clearFlags (l : List ScheduleItem) :
    countCurrent (clearFlags l) = 0 := by
  induction l with
  | nil => rfl
  | cons it rest ih =>
    rw [clearFlags_cons, countCurrent_cons, ih]
    simp

theorem scheduleIds_clearFlags (l : List ScheduleItem) :
    scheduleIds (clearFlags l) = scheduleIds l := by
  induction l with
  | nil => rfl
  | cons it rest ih =>
    rw [clearFlags_cons, scheduleIds_cons, scheduleIds_cons, ih]

theorem length_clearFlags (l : List ScheduleItem) :
    (clearFlags l).length = l.length := by
  simp [clearFlags]

theorem currentIndexOf_clearFlags (l : List ScheduleItem) :
    currentIndexOf (clearFlags l) = none := by
  induction l with
  | nil => rfl
  | cons it rest ih =>
    rw [clearFlags_cons]
    simp only [currentIndexOf, ih]
    rfl

theorem length_setCurrentIdx (l : List ScheduleItem) (i : Nat) :
    (setCurrentIdx l i).length = l.length := by
  induction l generalizing i with
  | nil => rfl
  | cons it rest ih =>
    cases i with
    | zero => simp [setCurrentIdx, length_clearFlags]
    | succ n => simp [setCurrentIdx, ih]

theorem scheduleIds_setCurrentIdx (l : List ScheduleItem) (i : Nat) :
    scheduleIds (setCurrentIdx l i) = scheduleIds l := by
  induction l generalizing i with
  | nil => rfl
  | cons it rest ih =>
    cases i with
    | zero =>
      have hcf := scheduleIds_clearFlags rest
      simp only [scheduleIds] at hcf
      simp [setCurrentIdx, scheduleIds, hcf]
    | succ n =>
      simp only [setCurrentIdx, scheduleIds, List.map_cons]
      have := ih n
      simp [scheduleIds] at this
      simp [this]

theorem countCurrent_setCurrentIdx_le (l : List ScheduleItem) (i : Nat) :
    countCurrent (setCurrentIdx l i) ≤ 1 := by
  induction l generalizing i with
  | nil => simp [setCurrentIdx, countCurrent_nil]
  | cons it rest ih =>
    cases i with
    | zero => simp [setCurrentIdx, countCurrent_cons, countCurrent_clearFlags]
    | succ n => simpa [setCurrentIdx, countCurrent_cons] using ih n

theorem currentIndexOf_setCurrentIdx (l : List ScheduleItem) (i : Nat)
    (h : i < l.length) : currentIndexOf (setCurrentIdx l i) = some i := by
  induction l generalizing i with
  | nil => simp at h
  | cons it rest ih =>
    cases i with
    | zero => simp [setCurrentIdx, currentIndexOf]
    | succ n =>
      have hn : n < rest.length := by simpa using h
      simp [setCurrentIdx, currentIndexOf, ih n hn]

theorem currentIndexOf_lt_length (l : List ScheduleItem) (i : Nat)
    (h : currentIndexOf l = some i) : i < l.length := by
  induction l generalizing i with
  | nil => simp [currentIndexOf] at h
  | cons it rest ih =>
    by_cases hcur : it.is_current
    · simp [currentIndexOf, hcur] at h
      simp only [List.length_cons]
      omega
    · simp [currentIndexOf, hcur] at h
      rcases h with ⟨j, hj, rfl⟩
      have := ih j hj
      simpa using Nat.succ_lt_succ this

theorem setCurrentById_cons (it : ScheduleItem) (rest : List ScheduleItem)
    (id : String) :
    setCurrentById (it :: rest) id
      = { it with is_current := it.id == id } :: setCurrentById rest id := rfl

theorem scheduleIds_setCurrentById (l : List ScheduleItem) (id : String) :
    scheduleIds (setCurrentById l id) = scheduleIds l := by
  induction l with
  | nil => rfl
  | cons it rest ih =>
    rw [setCurrentById_cons, scheduleIds_cons, scheduleIds_cons, ih]

theorem countCurrent_setCurrentById_of_not_mem (l : List ScheduleItem)
    (id : String) (h : id ∉ scheduleIds l) :
    countCurrent (setCurrentById l id) = 0 := by
  induction l with
  | nil => rfl
  | cons it rest ih =>
    rw [scheduleIds_cons] at h
    have hne : (it.id == id) = false := by
      simp only [List.mem_cons, not_or] at h
      simp [beq_iff_eq]
      exact fun e => h.1 e.symm
    rw [setCurrentById_cons, countCurrent_cons]
    have hr : countCurrent (setCurrentById rest id) = 0 := by
      refine ih fun hm => ?_
      simp only [List.mem_cons, not_or] at h
      exact h.2 hm
    simp [hne, hr]

theorem countCurrent_setCurrentById_of_mem (l : List ScheduleItem)
    (id : String) (hnd : (scheduleIds l).Nodup) (hm : id ∈ scheduleIds l) :
    countCurrent (setCurrentById l id) = 1 := by
  induction l with
  | nil => simp [scheduleIds] at hm
  | cons it rest ih =>
    rw [scheduleIds_cons] at hnd hm
    rw [setCurrentById_cons, countCurrent_cons]
    by_cases he : it.id = id
    · have hb : (it.id == id) = true := by simp [beq_iff_eq, he]
      have hnm : id ∉ scheduleIds rest := by
        rcases List.nodup_cons.mp hnd with ⟨hni, _⟩
        simpa [he] using hni
      simp [hb, countCurrent_setCurrentById_of_not_mem rest id hnm]
    · have hb : (it.id == id) = false := by simp [beq_iff_eq, he]
      have hm' : id ∈ scheduleIds rest := by
        rcases List.mem_cons.mp hm with h | h
        · exact absurd h.symm he
        · exact h
      rcases List.nodup_cons.mp hnd with ⟨_, hnd'⟩
      simp [hb, ih hnd' hm']

theorem countCurrent_setCurrentById_le (l : List ScheduleItem) (id : String)
    (hnd : (scheduleIds l).Nodup) :
    countCurrent (setCurrentById l id) ≤ 1 := by
  by_cases hm : id ∈ scheduleIds l
  · exact le_of_eq (countCurrent_setCurrentById_of_mem l id hnd hm)
  · simp [countCurrent_setCurrentById_of_not_mem l id hm]

theorem scheduleIds_editMap (l : List ScheduleItem) (id : String)
    (p : EditPayload) :
    scheduleIds (l.map fun it => if it.id == id then applyEdit p it else it)
      = scheduleIds l := by
  induction l with
  | nil => rfl
  | cons it rest ih =>
    simp only [List.map_cons, scheduleIds_cons, ih]
    by_cases hb : (it.id == id) = true <;> simp [hb, applyEdit]

theorem countCurrent_editMap (l : List ScheduleItem) (id : String)
    (p : EditPayload) :
    countCurrent (l.map fun it => if it.id == id then applyEdit p it else it)
      = countCurrent l := by
  induction l with
  | nil => rfl
  | cons it rest ih =>
    simp only [List.map_cons]
    rw [countCurrent_cons, countCurrent_cons, ih]
    by_cases hb : (it.id == id) = true <;> simp [hb, applyEdit]

theorem countCurrent_append (l₁ l₂ : List ScheduleItem) :
    countCurrent (l₁ ++ l₂) = countCurrent l₁ + countCurrent l₂ := by
  simp [countCurrent, List.filter_append]

theorem countCurrent_filter_le (l : List ScheduleItem) (p : ScheduleItem → Bool) :
    countCurrent (l.filter p) ≤ countCurrent l := by
  have hs : List.Sublist ((l.filter p).filter (fun it => it.is_current))
      (l.filter (fun it => it.is_current)) :=
    List.Sublist.filter _ (List.filter_sublist l)
  simpa [countCurrent] using hs.length_le

theorem scheduleIds_filter_nodup (l : List ScheduleItem)
    (p : ScheduleItem → Bool) (hnd : (scheduleIds l).Nodup) :
    (scheduleIds (l.filter p)).Nodup := by
  have hs : List.Sublist (scheduleIds (l.filter p)) (scheduleIds l) :=
    List.Sublist.map _ (List.filter_sublist l)
  exact hnd.sublist hs

/-! ## Reorder lookup lemmas -/

theorem find?_by_id_of_mem (l : List ScheduleItem) (it : ScheduleItem)
    (hnd : (scheduleIds l).Nodup) (hm : it ∈ l) :
    (l.find? fun x => x.id == it.id) = some it := by
  induction l with
  | nil => cases hm
  | cons a rest ih =>
    rw [scheduleIds_cons] at hnd
    rcases List.nodup_cons.mp hnd with ⟨hna, hnd'⟩
    rcases List.mem_cons.mp hm with rfl | hm'
    · exact List.find?_cons_of_pos _ (by simp)
    · have hidm : it.id ∈ scheduleIds rest := List.mem_map_of_mem _ hm'
      have hne : ¬ (a.id == it.id) = true := by
        simp only [beq_iff_eq]
        exact fun e => hna (e ▸ hidm)
      have hstep : (List.find? (fun x => x.id == it.id) (a :: rest))
          = List.find? (fun x => x.id == it.id) rest :=
        List.find?_cons_of_neg _ hne
      rw [hstep]
      exact ih hnd' hm'

theorem ids_filterMap_find_eq_self (l : List ScheduleItem)
    (hnd : (scheduleIds l).Nodup) :
    ((scheduleIds l).filterMap fun i => l.find? fun it => it.id == i) = l := by
  induction l with
  | nil => rfl
  | cons a rest ih =>
    rw [scheduleIds_cons] at hnd ⊢
    rcases List.nodup_cons.mp hnd with ⟨hna, hnd'⟩
    have hhead : (List.find? (fun it => it.id == a.id) (a :: rest)) = some a :=
      List.find?_cons_of_pos _ (by simp)
    simp only [List.filterMap_cons, hhead]
    congr 1
    have hcongr : ∀ i ∈ scheduleIds rest,
        (List.find? (fun it => it.id == i) (a :: rest))
          = List.find? (fun it => it.id == i) rest := by
      intro i hi
      have hne : ¬ (a.id == i) = true := by
        simp only [beq_iff_eq]
        exact fun e => hna (e ▸ hi)
      exact List.find?_cons_of_neg _ hne
    rw [List.filterMap_congr hcongr]
    exact ih hnd'

theorem reorder_result_perm (l : List ScheduleItem) (ids : List String)
    (hnd : (scheduleIds l).Nodup) (hperm : ids.Perm (scheduleIds l)) :
    (ids.filterMap fun i => l.find? fun it => it.id == i).Perm l := by
  have h1 := hperm.filterMap fun i => l.find? fun it => it.id == i
  rw [ids_filterMap_find_eq_self l hnd] at h1
  exact h1

theorem scheduleIds_filterMap_find (l : List ScheduleItem) (ids : List String)
    (h : ∀ i ∈ ids, i ∈ scheduleIds l) :
    scheduleIds (ids.filterMap fun i => l.find? fun it => it.id == i) = ids := by
  induction ids with
  | nil => rfl
  | cons i is ih =>
    have hi : i ∈ scheduleIds l := h i (List.mem_cons_self i is)
    cases hf : l.find? (fun x => x.id == i) with
    | none =>
      rw [List.find?_eq_none] at hf
      obtain ⟨it, hit, hid⟩ := List.mem_map.mp hi
      have := hf it hit
      simp [hid] at this
    | some found =>
      have hfid := List.find?_some hf
      simp only [beq_iff_eq] at hfid
      simp only [List.filterMap_cons, hf, scheduleIds_cons,
        ih fun j hj => h j (List.mem_cons_of_mem _ hj)]
      rw [hfid]

theorem countCurrent_of_perm (l₁ l₂ : List ScheduleItem) (h : l₁.Perm l₂) :
    countCurrent l₁ = countCurrent l₂ := by
  simpa [countCurrent] using (h.filter fun it => it.is_current).length_eq

/-! ## Preservation of the schedule invariant -/

theorem scheduleInv_applyOp (l : List ScheduleItem) (op : ScheduleOp)
    (h : ScheduleInv l) : ScheduleInv (applyOp l op) := by
  obtain ⟨hnd, hcnt⟩ := h
  cases op with
  | next =>
    simp only [applyOp, nextOp]
    cases hcio : currentIndexOf l with
    | none =>
      cases hemp : l.isEmpty
      · simp only [Bool.false_eq_true, if_false]
        exact ⟨by rw [scheduleIds_setCurrentIdx]; exact hnd,
          countCurrent_setCurrentIdx_le _ _⟩
      · simp only [if_true]
        exact ⟨hnd, hcnt⟩
    | some i =>
      exact ⟨by rw [scheduleIds_setCurrentIdx]; exact hnd,
        countCurrent_setCurrentIdx_le _ _⟩
  | previous =>
    simp only [applyOp, previousOp]
    cases hcio : currentIndexOf l with
    | none =>
      cases hemp : l.isEmpty
      · simp only [Bool.false_eq_true, if_false]
        exact ⟨by rw [scheduleIds_setCurrentIdx]; exact hnd,
          countCurrent_setCurrentIdx_le _ _⟩
      · simp only [if_true]
        exact ⟨hnd, hcnt⟩
    | some i =>
      exact ⟨by rw [scheduleIds_setCurrentIdx]; exact hnd,
        countCurrent_setCurrentIdx_le _ _⟩
  | setCur id =>
    simp only [applyOp, setCurrentOp]
    by_cases hm : id ∈ scheduleIds l
    · have hb : (scheduleIds l).contains id = true := by simpa using hm
      simp only [hb, if_true]
      exact ⟨by rw [scheduleIds_setCurrentById]; exact hnd,
        countCurrent_setCurrentById_le l id hnd⟩
    · have hb : (scheduleIds l).contains id = false := by
        simpa using hm
      simp only [hb, Bool.false_eq_true, if_false]
      exact ⟨hnd, hcnt⟩
  | clearCur =>
    refine ⟨?_, ?_⟩
    · rw [applyOp]
      rw [clearCurrentOp, scheduleIds_clearFlags]
      exact hnd
    · rw [applyOp]
      rw [clearCurrentOp, countCurrent_clearFlags]
      omega
  | reorder ids =>
    simp only [applyOp, reorderOp]
    by_cases hp : ids.Perm (scheduleIds l)
    · simp only [if_pos hp]
      have hperm := reorder_result_perm l ids hnd hp
      refine ⟨?_, ?_⟩
      · have h2 := (List.Perm.map (fun it : ScheduleItem => it.id) hperm).nodup_iff
        exact h2.mpr hnd
      · rw [countCurrent_of_perm _ _ hperm]
        exact hcnt
    · simp only [if_neg hp]
      exact ⟨hnd, hcnt⟩
  | create item =>
    simp only [applyOp, createOp]
    by_cases hm : item.id ∈ scheduleIds l
    · have hb : (scheduleIds l).contains item.id = true := by simpa using hm
      simp only [hb, if_true]
      exact ⟨hnd, hcnt⟩
    · have hb : (scheduleIds l).contains item.id = false := by
        simpa using hm
      simp only [hb, Bool.false_eq_true, if_false]
      refine ⟨?_, ?_⟩
      · have hids : scheduleIds (l ++ [{ item with is_current := false }])
            = scheduleIds l ++ [item.id] := by
          simp [scheduleIds]
        rw [hids]
        simp only [List.nodup_append, List.nodup_cons, List.not_mem_nil,
          not_false_iff, List.nodup_nil, and_true, true_and]
        refine ⟨hnd, ?_⟩
        intro a ha
        simp only [List.mem_singleton]
        exact fun e => hm (e ▸ ha)
      · rw [countCurrent_append]
        have : countCurrent [{ item with is_current := false }] = 0 := by
          rw [countCurrent_cons]
          simp [countCurrent_nil]
        omega
  | edit id p =>
    simp only [applyOp, editOp]
    by_cases hm : id ∈ scheduleIds l
    · have hb : (scheduleIds l).contains id = true := by simpa using hm
      simp only [hb, if_true]
      exact ⟨by rw [scheduleIds_editMap]; exact hnd,
        by rw [countCurrent_editMap]; exact hcnt⟩
    · have hb : (scheduleIds l).contains id = false := by
        simpa using hm
      simp only [hb, Bool.false_eq_true, if_false]
      exact ⟨hnd, hcnt⟩
  | delete id =>
    simp only [applyOp, deleteOp]
    by_cases hm : id ∈ scheduleIds l
    · have hb : (scheduleIds l).contains id = true := by simpa using hm
      simp only [hb, if_true]
      refine ⟨scheduleIds_filter_nodup l _ hnd, ?_⟩
      exact le_trans (countCurrent_filter_le l _) hcnt
    · have hb : (scheduleIds l).contains id = false := by
        simpa using hm
      simp only [hb, Bool.false_eq_true, if_false]
      exact ⟨hnd, hcnt⟩

theorem scheduleInv_applyOps (ops : List ScheduleOp) (l : List ScheduleItem)
    (h : ScheduleInv l) : ScheduleInv (applyOps ops l) := by
  induction ops generalizing l with
  | nil => exact h
  | cons op ops ih => exact ih (applyOp l op) (scheduleInv_applyOp l op h)

/-! ## C1: at most one current item in every reachable state -/

/-- C1: starting from the empty schedule collection, after any sequence of
mutations (next, previous, set-current, clear-current, reorder, create, edit,
delete) the number of items with `is_current = true` is exactly 0 or 1, never
more. -/
theorem schedule_at_most_one_current (ops : List ScheduleOp) :
    countCurrent (applyOps ops []) = 0 ∨ countCurrent (applyOps ops []) = 1 := by
  have h := scheduleInv_applyOps ops []
    ⟨by simp [scheduleIds], by simp [countCurrent_nil]⟩
  have := h.2
  omega

/-! ## Navigation boundary behaviour -/

theorem length_nextOp (l : List ScheduleItem) : (nextOp l).length = l.length := by
  cases h : currentIndexOf l with
  | none => cases he : l.isEmpty <;> simp [nextOp, h, he, length_setCurrentIdx]
  | some i => simp [nextOp, h, length_setCurrentIdx]

theorem length_previousOp (l : List ScheduleItem) :
    (previousOp l).length = l.length := by
  cases h : currentIndexOf l with
  | none => cases he : l.isEmpty <;> simp [previousOp, h, he, length_setCurrentIdx]
  | some i => simp [previousOp, h, length_setCurrentIdx]

theorem length_navStep (l : List ScheduleItem) (op : NavOp) :
    (navStep l op).length = l.length := by
  cases op
  · exact length_nextOp l
  · exact length_previousOp l

theorem length_navApply (ops : List NavOp) (l : List ScheduleItem) :
    (navApply ops l).length = l.length := by
  induction ops generalizing l with
  | nil => rfl
  | cons op ops ih => rw [navApply, ih, length_navStep]

theorem currentIndexOf_nextOp_none (l : List ScheduleItem)
    (hnc : currentIndexOf l = none) (hne : l ≠ []) :
    currentIndexOf (nextOp l) = some 0 := by
  have hemp : l.isEmpty = false := by simpa [List.isEmpty_iff] using hne
  have hlen : 0 < l.length := List.length_pos.mpr hne
  simp [nextOp, hnc, hemp, currentIndexOf_setCurrentIdx l 0 hlen]

theorem currentIndexOf_previousOp_none (l : List ScheduleItem)
    (hnc : currentIndexOf l = none) (hne : l ≠ []) :
    currentIndexOf (previousOp l) = some 0 := by
  have hemp : l.isEmpty = false := by simpa [List.isEmpty_iff] using hne
  have hlen : 0 < l.length := List.length_pos.mpr hne
  simp [previousOp, hnc, hemp, currentIndexOf_setCurrentIdx l 0 hlen]

theorem currentIndexOf_nextOp_some (l : List ScheduleItem) (i : Nat)
    (h : currentIndexOf l = some i) :
    currentIndexOf (nextOp l) = some (min (l.length - 1) (i + 1)) := by
  have hi := currentIndexOf_lt_length l i h
  have hmin : min (l.length - 1) (i + 1) < l.length := by omega
  simp [nextOp, h, currentIndexOf_setCurrentIdx _ _ hmin]

theorem currentIndexOf_previousOp_some (l : List ScheduleItem) (i : Nat)
    (h : currentIndexOf l = some i) :
    currentIndexOf (previousOp l) = some (i - 1) := by
  have hi := currentIndexOf_lt_length l i h
  have hlt : i - 1 < l.length := by omega
  simp [previousOp, h, currentIndexOf_setCurrentIdx _ _ hlt]

/-! ## C2: navigation stays within bounds and never wraps -/

/-- C2: on a non-empty list with no current item, every sequence of
`next()`/`previous()` calls keeps the derived current index inside
`[0, N-1]`; `next()` from "no current" selects index 0 (`previous()`
likewise), `next()` at index i selects `min(N-1, i+1)` and `previous()`
selects `i-1` floored at 0, so repeated `next()` at the last item stays on
the last item with no wraparound and no error. -/
theorem nav_bounded_no_wrap (l : List ScheduleItem) (hne : l ≠ [])
    (hnc : currentIndexOf l = none) :
    (∀ ops i, currentIndexOf (navApply ops l) = some i → i < l.length) ∧
    currentIndexOf (nextOp l) = some 0 ∧
    currentIndexOf (previousOp l) = some 0 ∧
    (∀ ops i, currentIndexOf (navApply ops l) = some i →
      currentIndexOf (navStep (navApply ops l) NavOp.next)
          = some (min (l.length - 1) (i + 1)) ∧
      currentIndexOf (navStep (navApply ops l) NavOp.previous)
          = some (i - 1)) ∧
    (∀ ops, currentIndexOf (navApply ops l) = some (l.length - 1) →
      currentIndexOf (navStep (navApply ops l) NavOp.next)
          = some (l.length - 1)) := by
  refine ⟨?_, currentIndexOf_nextOp_none l hnc hne,
    currentIndexOf_previousOp_none l hnc hne, ?_, ?_⟩
  · intro ops i h
    have hb := currentIndexOf_lt_length _ i h
    rwa [length_navApply] at hb
  · intro ops i h
    refine ⟨?_, currentIndexOf_previousOp_some _ i h⟩
    have h2 := currentIndexOf_nextOp_some _ i h
    rwa [length_navApply] at h2
  · intro ops h
    have h2 := currentIndexOf_nextOp_some _ _ h
    rw [length_navApply] at h2
    have hm : min (l.length - 1) (l.length - 1 + 1) = l.length - 1 := by omega
    rwa [hm] at h2

/-- Demo items for the navigation witness. -/
def demoNavItem (i : String) (t : String) : ScheduleItem :=
  { id := i, title := t, description := "", start_time := "09:00",
    end_time := "10:00", phase_id := none, notes := "", is_current := false,
    people := [], groups := [] }

/-- Demo three-item schedule with no current item. -/
def demoNavSchedule : List ScheduleItem :=
  [demoNavItem "a" "A", demoNavItem "b" "B", demoNavItem "c" "C"]

/-- C2 witness: on the concrete three-item schedule with no current item,
`next()` and `previous()` both select index 0, and from the state after one
`next()` the step characterisation gives `next -> min(2, 1) = 1`. -/
theorem nav_bounded_no_wrap_witness :
    currentIndexOf (nextOp demoNavSchedule) = some 0 ∧
    currentIndexOf (previousOp demoNavSchedule) = some 0 ∧
    currentIndexOf (navStep (navApply [NavOp.next] demoNavSchedule) NavOp.next)
        = some (min (demoNavSchedule.length - 1) (0 + 1)) :=
  ⟨(nav_bounded_no_wrap demoNavSchedule (by decide) rfl).2.1,
   (nav_bounded_no_wrap demoNavSchedule (by decide) rfl).2.2.1,
   ((nav_bounded_no_wrap demoNavSchedule (by decide) rfl).2.2.2.1
      [NavOp.next] 0 (by decide)).1⟩

/-! ## C7: reorder rejects id sets that do not match -/

/-- C7: whenever the submitted id set does not match the existing id set
exactly, `reorder` fails with `InvalidOrder` (partial and foreign lists are
rejected rather than items being dropped) and the stored schedule is left
unchanged. -/
theorem reorder_rejects_mismatched_ids (l : List ScheduleItem)
    (ids : List String) (h : ¬ ∀ x, x ∈ ids ↔ x ∈ scheduleIds l) :
    reorderOp l ids = .error .InvalidOrder ∧
    applyOp l (.reorder ids) = l := by
  have hnp : ¬ ids.Perm (scheduleIds l) := fun hp => h fun x => hp.mem_iff
  constructor
  · simp [reorderOp, hnp]
  · simp [applyOp, reorderOp, hnp]

/-- C7 witness: a foreign one-id list against a one-item schedule is
rejected and the schedule is unchanged. -/
theorem reorder_rejects_mismatched_ids_witness :
    reorderOp [demoNavItem "a" "A"] ["zzz"] = .error .InvalidOrder ∧
    applyOp [demoNavItem "a" "A"] (.reorder ["zzz"]) = [demoNavItem "a" "A"] :=
  reorder_rejects_mismatched_ids [demoNavItem "a" "A"] ["zzz"]
    (fun hall => absurd ((hall "zzz").mp (by decide)) (by decide))

/-! ## C8: set-current on an absent id -/

theorem clearFlags_setCurrentById (l : List ScheduleItem) (id : String) :
    clearFlags (setCurrentById l id) = clearFlags l := by
  induction l with
  | nil => rfl
  | cons it rest ih =>
    rw [setCurrentById_cons, clearFlags_cons, clearFlags_cons, ih]

/-- C8: `set_current(id)` with an absent id fails with `NotFound` and leaves
the stored schedule unchanged; with a present id it returns a schedule whose
every item is current exactly when it carries the requested id (independent
of position), with every other field and the id order untouched. -/
theorem set_current_notfound_or_sets (l : List ScheduleItem) (id : String) :
    (id ∉ scheduleIds l →
      setCurrentOp l id = .error .NotFound ∧ applyOp l (.setCur id) = l) ∧
    (id ∈ scheduleIds l → (scheduleIds l).Nodup →
      ∃ l', setCurrentOp l id = .ok l' ∧ countCurrent l' = 1 ∧
        scheduleIds l' = scheduleIds l ∧
        (∀ it, it ∈ l' → (it.is_current = true ↔ it.id = id)) ∧
        clearFlags l' = clearFlags l) := by
  constructor
  · intro hm
    exact ⟨by simp [setCurrentOp, hm], by simp [applyOp, setCurrentOp, hm]⟩
  · intro hm hnd
    refine ⟨setCurrentById l id, by simp [setCurrentOp, hm],
      countCurrent_setCurrentById_of_mem l id hnd hm,
      scheduleIds_setCurrentById l id, ?_, clearFlags_setCurrentById l id⟩
    intro it hit
    simp only [setCurrentById] at hit
    obtain ⟨orig, _, rfl⟩ := List.mem_map.mp hit
    simp [beq_iff_eq]

/-- C8 witness: an absent id is rejected with the schedule unchanged, and a
present id makes exactly the matching item current. -/
theorem set_current_notfound_or_sets_witness :
    (setCurrentOp demoNavSchedule "zzz" = .error .NotFound ∧
      applyOp demoNavSchedule (.setCur "zzz") = demoNavSchedule) ∧
    ∃ l', setCurrentOp demoNavSchedule "b" = .ok l' ∧ countCurrent l' = 1 ∧
      scheduleIds l' = scheduleIds demoNavSchedule ∧
      (∀ it, it ∈ l' → (it.is_current = true ↔ it.id = "b")) ∧
      clearFlags l' = clearFlags demoNavSchedule :=
  ⟨(set_current_notfound_or_sets demoNavSchedule "zzz").1 (by decide),
   (set_current_notfound_or_sets demoNavSchedule "b").2 (by decide) (by decide)⟩

/-! ## C6: reorder preserves records and the current item -/

theorem cons_get_eraseIdx_perm (l : List ScheduleItem) (i : Nat)
    (h : i < l.length) : ((l.get ⟨i, h⟩) :: l.eraseIdx i).Perm l := by
  induction l generalizing i with
  | nil => simp at h
  | cons a rest ih =>
    cases i with
    | zero => simp [List.eraseIdx]
    | succ n =>
      have hn : n < rest.length := by simpa using h
      have hswap : ((rest.get ⟨n, hn⟩) :: a :: rest.eraseIdx n).Perm
          (a :: (rest.get ⟨n, hn⟩) :: rest.eraseIdx n) := List.Perm.swap _ _ _
      have hrec : (a :: (rest.get ⟨n, hn⟩) :: rest.eraseIdx n).Perm (a :: rest) :=
        (ih n hn).cons a
      simpa [List.eraseIdx] using hswap.trans hrec

theorem jsArrayMove_perm (l : List ScheduleItem) (fromIdx toIdx : Nat)
    (hf : fromIdx < l.length) (ht : toIdx ≤ l.length - 1) :
    (jsArrayMove l fromIdx toIdx).Perm l := by
  have hget : l.get? fromIdx = some (l.get ⟨fromIdx, hf⟩) := by
    rw [List.get?_eq_get]
  rw [jsArrayMove, hget]
  have hlen : (l.eraseIdx fromIdx).length = l.length - 1 := by
    rw [List.length_eraseIdx]
    simp [hf]
  have hto : toIdx ≤ (l.eraseIdx fromIdx).length := by omega
  exact (List.perm_insertIdx _ _ hto).trans (cons_get_eraseIdx_perm l fromIdx hf)

/-- C6: the id list the drag-and-drop handler submits is always a permutation
of the currently stored ids, and `reorder` with a permutation stores exactly
that order while every record — its `is_current` flag included — travels
unchanged, so which item (by id) is current is preserved. -/
theorem reorder_preserves_items_and_current (l : List ScheduleItem)
    (activeId overId : String) (hnd : (scheduleIds l).Nodup) :
    (∀ order, handleDragEnd l activeId (some overId) = some order →
      activeId ∈ scheduleIds l → overId ∈ scheduleIds l →
      order.Perm (scheduleIds l)) ∧
    (∀ ids, ids.Perm (scheduleIds l) →
      ∃ l', reorderOp l ids = .ok l' ∧ scheduleIds l' = ids ∧ l'.Perm l ∧
        (l'.filter fun it => it.is_current).Perm
          (l.filter fun it => it.is_current)) := by
  constructor
  · intro order h ha ho
    simp only [handleDragEnd] at h
    by_cases heq : (activeId == overId) = true
    · simp [heq] at h
    · simp only [heq, Bool.false_eq_true, if_false, Option.some.injEq] at h
      subst h
      have hfa : l.findIdx (fun i => i.id == activeId) < l.length := by
        obtain ⟨it, hit, hid⟩ := List.mem_map.mp ha
        exact List.findIdx_lt_length_of_exists ⟨it, hit, by simp [hid]⟩
      have hfo : l.findIdx (fun i => i.id == overId) < l.length := by
        obtain ⟨it, hit, hid⟩ := List.mem_map.mp ho
        exact List.findIdx_lt_length_of_exists ⟨it, hit, by simp [hid]⟩
      have hperm := jsArrayMove_perm l (l.findIdx fun i => i.id == activeId)
        (l.findIdx fun i => i.id == overId) hfa (by omega)
      exact hperm.map fun i => i.id
  · intro ids hp
    have hperm := reorder_result_perm l ids hnd hp
    exact ⟨ids.filterMap fun i => l.find? fun it => it.id == i,
      by simp [reorderOp, hp],
      scheduleIds_filterMap_find l ids fun i hi => hp.mem_iff.mp hi,
      hperm, hperm.filter _⟩

/-- C6 witness: dragging item a onto item b in the three-item demo schedule
submits the permutation [b, a, c], and reordering by it stores that order
with every record travelling unchanged. -/
theorem reorder_preserves_items_and_current_witness :
    (["b", "a", "c"] : List String).Perm (scheduleIds demoNavSchedule) ∧
    ∃ l', reorderOp demoNavSchedule ["b", "a", "c"] = .ok l' ∧
      scheduleIds l' = ["b", "a", "c"] ∧ l'.Perm demoNavSchedule ∧
      (l'.filter fun it => it.is_current).Perm
        (demoNavSchedule.filter fun it => it.is_current) :=
  ⟨(reorder_preserves_items_and_current demoNavSchedule "a" "b" (by decide)).1
      ["b", "a", "c"] (by decide) (by decide) (by decide),
   (reorder_preserves_items_and_current demoNavSchedule "a" "b" (by decide)).2
      ["b", "a", "c"] (by decide)⟩

end EventDashboard
